import Mathlib

/-!
# License validation and lifecycle (src/license/license.go)

A shallow embedding of the license package: the process-wide `LCfg`
(`LicenseConfig`), `CheckLicenseSecret`, `ValidateLicense`, `decryptKey`,
`validateToken`, `checkExpiration`, `removeLicenseSecretsConfig` and the
`WatchLicenseValidity` loop.

Conventions of the embedding.
* Pointers that may be nil are `Option`s; a nil dereference is the outcome
  `Go.panic`.
* `time.Now()` is the parameter `now`; instants are integers (nanoseconds).
* The collaborators outside the package (the cluster package, aes256 and the
  jwt library) are the fields of a `World`: each is an arbitrary function of
  its arguments, so every theorem holds whatever they answer.  Library calls
  are taken to return.
* Calls that change the secret store (`DeleteSecrets`, `CreateLicenseSecret`)
  are recorded, in order, in a list of `StoreCall`s.
* The receiver `l` of `ValidateLicense` is a license object of its own (as the
  one built by `CheckLicenseSecret`); its value after the call is returned.
-/

namespace DiscoveryEngine

/-- Instants of `time.Time`, counted in nanoseconds. -/
abbrev Time := Int

/-- Go `error` value, identified by its message. -/
structure GoError where
  msg : String
deriving DecidableEq

/-- Where a nil pointer is dereferenced. -/
inductive PanicCause where
  /-- Read of `LCfg.Lcs.UserId` with `LCfg.Lcs == nil` (ValidateLicense, line 86). -/
  | nilLicense
  /-- Call of `exp.Before(...)` with `exp == nil` (checkExpiration, line 254). -/
  | nilExpiration
deriving DecidableEq

/-- Outcome of a Go call: it returns a value or panics. -/
inductive Go (α : Type) where
  | ret (a : α)
  | panic (c : PanicCause)

/-- Handle `*kubernetes.Clientset`. -/
structure K8sClient where
  id : Nat
deriving DecidableEq

/-- License to store license related information. -/
structure License where
  UserId : String
  Key : String
  PlatformUUID : String
deriving DecidableEq

/-- Type `*rsa.PublicKey`, the result of parsing a PEM block. -/
structure RSAPublicKey where
  pem : String
deriving DecidableEq

/-- Signing method of a parsed token (`token.Method`). -/
inductive SigningMethod where
  | RSA (alg : String)
  | RSAPSS (alg : String)
  | HMAC (alg : String)
  | ECDSA (alg : String)
  | Ed25519
  | none
deriving DecidableEq

/-- Type `jwt.Token`: the parts the package looks at. -/
structure JwtToken where
  Raw : String
  Method : SigningMethod
  /-- Value of `Header["alg"]`. -/
  alg : String
  Valid : Bool
deriving DecidableEq

/-- Type `jwt.RegisteredClaims` as seen through the two getters the package
calls.  `GetExpirationTime` returns a pointer to a date together with an
error; the pointer is `none` when it is nil (no `exp` claim). -/
structure RegisteredClaims where
  GetSubject : Except GoError String
  GetExpirationTime : Except GoError (Option Time)

/-- Claims of a license token. -/
structure Claims where
  Features : List String
  RegisteredClaims : RegisteredClaims

/-- A parsed token with its claims. -/
structure Token where
  jwt : JwtToken
  claims : Claims

/-- LicenseConfig to store configs required for licensing. -/
structure LicenseConfig where
  k8sClient : K8sClient
  Tkn : Option Token
  Lcs : Option License

/-- Type `v1.Secret`: data map, name and uid. -/
structure Secret where
  Data : List (String × String)
  Name : String
  UID : String
deriving DecidableEq

/-- Map read `secret.Data[k]` converted to a string: a missing key gives "". -/
def Secret.get (s : Secret) (k : String) : String :=
  match s.Data.lookup k with
  | some v => v
  | none => ""

/-- A call that changes the secret store. -/
inductive StoreCall where
  /-- Call `cluster.DeleteSecrets(client, name, namespace)`. -/
  | delete (client : K8sClient) (name ns : String)
  /-- Call `cluster.CreateLicenseSecret(client, namespace, key, userId, name, label)`. -/
  | create (client : K8sClient) (ns key userId name label : String)
deriving DecidableEq

/-- The collaborators outside the package. -/
structure World where
  /-- Call `cluster.GetSecrets(client, label, namespace, name)`: a secret, nil, or an error. -/
  GetSecrets : K8sClient → String → String → String → Except GoError (Option Secret)
  /-- Call `cluster.GetKubeSystemUUID(client)`. -/
  GetKubeSystemUUID : K8sClient → Except GoError String
  /-- Call `cluster.CreateLicenseSecret(client, namespace, key, userId, name, label)`. -/
  CreateLicenseSecret :
    K8sClient → String → String → String → String → String → Except GoError Secret
  /-- Call `cluster.DeleteSecrets(client, name, namespace)`: nil or an error. -/
  DeleteSecrets : K8sClient → String → String → Option GoError
  /-- Call `aes256.Decrypt(key, passphrase)`. -/
  Decrypt : String → String → String
  /-- Call `jwt.ParseRSAPublicKeyFromPEM(pem)`. -/
  ParseRSAPublicKeyFromPEM : String → Except GoError RSAPublicKey
  /-- Call `jwt.ParseWithClaims(tokenString, claims, keyFunc)`: the parsed token and
  the filled-in claims, or an error. -/
  ParseWithClaims :
    String → (JwtToken → Except GoError RSAPublicKey) → Except GoError (JwtToken × Claims)

/-- For testing purpose. -/
def publicKey : String :=
  "-----BEGIN PUBLIC KEY-----\nMIGeMA0GCSqGSIb3DQEBAQUAA4GMADCBiAKBgHUc95xoPHqsuC3zLfCSHHJ9F/Gx\nlJdyBkns1wDYCLY8yX1vvZndfDP9br3dbFKOaYOYmF9e0gKcDpGItdBQe+TVX9ol\nM3S23yD/xHNKw+f88KjI0dPnj3IRgqajd5eBMhNNugRFzRKWBBLCflukm7CfjzUP\nX1jQ/NCkoTwjScpJAgMBAAE=\n-----END PUBLIC KEY-----"

def discoveryEngineSecretName : String := "discovery-engine-license"

def licenseSecLabel : String := "app=discovery-engine"

/-- The constant `namespace` of the package. -/
def namespaceName : String := "accuknox-agents"

/-- InitializeConfig to initialize license config. -/
def InitializeConfig (k8sClient : K8sClient) : LicenseConfig :=
  { k8sClient := k8sClient, Tkn := none, Lcs := none }

/-- Function `strings.Split(s, sep)` for a separator of one character. -/
def stringsSplit : List Char → Char → List (List Char)
  | [], _ => [[]]
  | c :: cs, sep =>
    if c = sep then [] :: stringsSplit cs sep
    else
      match stringsSplit cs sep with
      | [] => [[c]]
      | h :: t => (c :: h) :: t

/-- Method `getKubeSystemUUID`: the uuid, or "" and the error. -/
def getKubeSystemUUID (w : World) (cfg : LicenseConfig) : Except GoError String :=
  match w.GetKubeSystemUUID cfg.k8sClient with
  | .error err => .error err
  | .ok uuid => .ok uuid

/-- Function `decryptKey`: the decrypted key when it splits into three
dot-separated parts. -/
def decryptKey (w : World) (key platformUUID : String) : Except GoError String :=
  let decryptedKey := w.Decrypt key platformUUID
  let tokenSplit := stringsSplit decryptedKey.data '.'
  if tokenSplit.length ≠ 3 then .error ⟨"invalid license key"⟩
  else .ok decryptedKey

/-- The key function given to `jwt.ParseWithClaims` by `validateToken`. -/
def keyFunc (key : RSAPublicKey) (token : JwtToken) : Except GoError RSAPublicKey :=
  match token.Method with
  | .RSA _ => .ok key
  | _ => .error ⟨"unexpected signing method: " ++ token.alg⟩

/-- Method `validateUserId`. -/
def validateUserId (t : Token) (userId : String) : Option GoError :=
  match t.claims.RegisteredClaims.GetSubject with
  | .error err => some err
  | .ok sub => if sub ≠ userId then some ⟨"error while validating userId"⟩ else none

/-- Method `validateClaims`. -/
def validateClaims (t : Token) (userId : String) : Option GoError :=
  validateUserId t userId

/-- Function `validateToken`. -/
def validateToken (w : World) (decryptedKey userId : String) : Except GoError Token :=
  match w.ParseRSAPublicKeyFromPEM publicKey with
  | .error err => .error ⟨"error parsing RSA public key: " ++ err.msg ++ "\n"⟩
  | .ok key =>
    match w.ParseWithClaims decryptedKey (keyFunc key) with
    | .error err => .error err
    | .ok (jwtToken, claims) =>
      let t : Token := { jwt := jwtToken, claims := claims }
      match validateClaims t userId with
      | some err => .error err
      | none => .ok t

/-- Method `checkExpiration` on a `*Token` (nil is `none`), at the instant
`now` returned by `time.Now()`. -/
def checkExpiration (t : Option Token) (now : Time) : Go Bool :=
  match t with
  | none => .ret true
  | some t =>
    match t.claims.RegisteredClaims.GetExpirationTime with
    | .error _ => .ret true
    | .ok none => .panic .nilExpiration
    | .ok (some exp) => if exp < now then .ret true else .ret false

/-- Method `checkExistingLicense`. -/
def checkExistingLicense (cfg : LicenseConfig) : Bool :=
  cfg.Lcs.isSome || cfg.Tkn.isSome

/-- Result of `removeLicenseSecretsConfig`. -/
structure RemoveResult where
  err : Option GoError
  cfg : LicenseConfig
  calls : List StoreCall

/-- Method `removeLicenseSecretsConfig`. -/
def removeLicenseSecretsConfig (w : World) (cfg : LicenseConfig) : RemoveResult :=
  let cfg1 : LicenseConfig := { cfg with Lcs := none }
  let cfg2 : LicenseConfig := { cfg1 with Tkn := none }
  { err := w.DeleteSecrets cfg2.k8sClient discoveryEngineSecretName namespaceName
    cfg := cfg2
    calls := [.delete cfg2.k8sClient discoveryEngineSecretName namespaceName] }

/-- The error of line 86. -/
def validLicenseExists (cur : License) : GoError :=
  ⟨"valid license already exists with user-id: " ++ cur.UserId ++ ", key: " ++ cur.Key
    ++ " and platform uuid: " ++ cur.PlatformUUID⟩

/-- What a call of `ValidateLicense` returns and leaves behind. -/
structure ValidateResult where
  /-- The returned error (nil is `none`). -/
  err : Option GoError
  /-- The receiver after the call. -/
  l : License
  /-- The global `LCfg` after the call. -/
  cfg : LicenseConfig
  /-- The store calls made, in order. -/
  calls : List StoreCall

/-- ValidateLicense to validate license. -/
def ValidateLicense (w : World) (now : Time) (cfg : LicenseConfig) (l : License) :
    Go ValidateResult :=
  let existingLicense := checkExistingLicense cfg
  let conflict : Go (Option GoError) :=
    if existingLicense then
      match checkExpiration cfg.Tkn now with
      | .panic c => .panic c
      | .ret false =>
        match cfg.Lcs with
        | none => .panic .nilLicense
        | some cur => .ret (some (validLicenseExists cur))
      | .ret true => .ret none
    else .ret none
  match conflict with
  | .panic c => .panic c
  | .ret (some err) => .ret { err := some err, l := l, cfg := cfg, calls := [] }
  | .ret none =>
    match getKubeSystemUUID w cfg with
    | .error err =>
      .ret { err := some err, l := { l with PlatformUUID := "" }, cfg := cfg, calls := [] }
    | .ok uuid =>
      let l : License := { l with PlatformUUID := uuid }
      match decryptKey w l.Key l.PlatformUUID with
      | .error err => .ret { err := some err, l := l, cfg := cfg, calls := [] }
      | .ok decryptedKey =>
        match validateToken w decryptedKey l.UserId with
        | .error err => .ret { err := some err, l := l, cfg := cfg, calls := [] }
        | .ok t =>
          let rm : RemoveResult :=
            if existingLicense then removeLicenseSecretsConfig w cfg
            else { err := none, cfg := cfg, calls := [] }
          match rm.err with
          | some err => .ret { err := some err, l := l, cfg := rm.cfg, calls := rm.calls }
          | none =>
            let calls := rm.calls ++
              [.create rm.cfg.k8sClient namespaceName l.Key l.UserId
                discoveryEngineSecretName licenseSecLabel]
            match w.CreateLicenseSecret rm.cfg.k8sClient namespaceName l.Key l.UserId
                discoveryEngineSecretName licenseSecLabel with
            | .error err => .ret { err := some err, l := l, cfg := rm.cfg, calls := calls }
            | .ok _ =>
              .ret { err := none, l := l
                     cfg := { rm.cfg with Lcs := some l, Tkn := some t }
                     calls := calls }

/-- The error a call of `ValidateLicense` returned, if it returned. -/
def returnedError : Go ValidateResult → Option (Option GoError)
  | .ret r => some r.err
  | .panic _ => none

/-- What a call of `CheckLicenseSecret` returns and leaves behind. -/
structure CheckResult where
  err : Option GoError
  cfg : LicenseConfig
  calls : List StoreCall

/-- CheckLicenseSecret to fetch license secret and validate. -/
def CheckLicenseSecret (w : World) (now : Time) (cfg : LicenseConfig) : Go CheckResult :=
  match w.GetSecrets cfg.k8sClient licenseSecLabel namespaceName discoveryEngineSecretName with
  | .error err => .ret { err := some err, cfg := cfg, calls := [] }
  | .ok none =>
    .ret { err := some ⟨"license secret doesn't exist for discovery-engine"⟩
           cfg := cfg, calls := [] }
  | .ok (some secret) =>
    let l : License :=
      { UserId := secret.get "user-id", Key := secret.get "key", PlatformUUID := "" }
    match ValidateLicense w now cfg l with
    | .panic c => .panic c
    | .ret r =>
      let cfg1 : LicenseConfig := { r.cfg with Lcs := some r.l }
      match r.err with
      | some err => .ret { err := some err, cfg := cfg1, calls := r.calls }
      | none => .ret { err := none, cfg := cfg1, calls := r.calls }

/-- One pass through the body of the loop of `WatchLicenseValidity`. -/
inductive Poll where
  /-- The call `os.Exit(code)`. -/
  | exit (code : Nat)
  /-- A nil dereference, which nothing in the loop recovers. -/
  | panic (c : PanicCause)
  /-- The call `time.Sleep(seconds * time.Second)`, then the next pass. -/
  | sleep (cfg : LicenseConfig) (seconds : Nat)

/-- The body of the loop of `WatchLicenseValidity`, at the instant `now`. -/
def WatchLicenseValidity.poll (cfg : LicenseConfig) (now : Time) : Poll :=
  if cfg.Lcs.isNone || cfg.Tkn.isNone then .exit 1
  else
    match checkExpiration cfg.Tkn now with
    | .panic c => .panic c
    | .ret true => .exit 1
    | .ret false => .sleep cfg 15

/-- How a run of the loop stands after some passes. -/
inductive WatchResult where
  /-- The process exited with `code` after `sleeps` calls of `time.Sleep`. -/
  | exited (code : Nat) (sleeps : Nat)
  /-- The process panicked after `sleeps` calls of `time.Sleep`. -/
  | panicked (c : PanicCause) (sleeps : Nat)
  /-- The loop is still running after `sleeps` calls of `time.Sleep`. -/
  | running (sleeps : Nat)
deriving DecidableEq

/-- Method `WatchLicenseValidity`, run for at most `fuel` passes; `clock n` is
the instant of the pass that follows `n` sleeps, and `sleeps` counts the
sleeps so far. -/
def WatchLicenseValidity (clock : Nat → Time) :
    Nat → LicenseConfig → Nat → WatchResult
  | 0, _, sleeps => .running sleeps
  | fuel + 1, cfg, sleeps =>
    match WatchLicenseValidity.poll cfg (clock sleeps) with
    | .exit code => .exited code sleeps
    | .panic c => .panicked c sleeps
    | .sleep cfg1 _ => WatchLicenseValidity clock fuel cfg1 (sleeps + 1)

/-- States of `LCfg` that calls of the package lead to after `InitializeConfig`,
whatever the collaborators answer and whenever the calls are made.  A call
that panics has assigned nothing before the panic (lines 85 and 86 precede
every assignment), so it leads to no new state. -/
inductive Reachable : LicenseConfig → Prop where
  | init (k : K8sClient) : Reachable (InitializeConfig k)
  | check (w : World) (now : Time) (cfg : LicenseConfig) (r : CheckResult) :
      Reachable cfg → CheckLicenseSecret w now cfg = .ret r → Reachable r.cfg
  | validate (w : World) (now : Time) (cfg : LicenseConfig) (l : License)
      (r : ValidateResult) :
      Reachable cfg → ValidateLicense w now cfg l = .ret r → Reachable r.cfg
  | remove (w : World) (cfg : LicenseConfig) :
      Reachable cfg → Reachable (removeLicenseSecretsConfig w cfg).cfg

/-! ## Concrete collaborators and states, used to run the definitions -/

/-- A cluster client. -/
def client0 : K8sClient := ⟨0⟩

/-- A parsed RSA token for subject `sub` whose `exp` claim is `exp` (`none`: no
such claim). -/
def tokenFor (sub : String) (exp : Option Time) : Token :=
  { jwt := { Raw := "h.p.s", Method := .RSA "RS256", alg := "RS256", Valid := true }
    claims :=
      { Features := ["discovery"]
        RegisteredClaims := { GetSubject := .ok sub, GetExpirationTime := .ok exp } } }

/-- The secret the store answers on creation. -/
def createdSecret : Secret :=
  { Data := [("user-id", "alice"), ("key", "cipher")], Name := "discovery-engine-license"
    UID := "uid-1" }

/-- A world in which the stored secret is (user-id "alice", key "cipher"), the
cluster uuid is `uuid`, every key decrypts to `plain`, the public key parses,
the token parses to `parsed`, deletion answers `del` and creation `create`. -/
def worldOf (uuid : Except GoError String) (plain : String)
    (parsed : Except GoError Token) (del : Option GoError)
    (create : Except GoError Secret) : World :=
  { GetSecrets := fun _ _ _ _ => .ok (some createdSecret)
    GetKubeSystemUUID := fun _ => uuid
    CreateLicenseSecret := fun _ _ _ _ _ _ => create
    DeleteSecrets := fun _ _ _ => del
    Decrypt := fun _ _ => plain
    ParseRSAPublicKeyFromPEM := fun pem => .ok ⟨pem⟩
    ParseWithClaims := fun _ kf =>
      match parsed with
      | .error e => .error e
      | .ok t =>
        match kf t.jwt with
        | .error e => .error e
        | .ok _ => .ok (t.jwt, t.claims) }

/-- The license built from the stored secret. -/
def aliceLicense : License := { UserId := "alice", Key := "cipher", PlatformUUID := "" }

/-- An earlier license of bob. -/
def bobLicense : License := { UserId := "bob", Key := "old", PlatformUUID := "uuid-0" }

/-- State holding bob's license with a token that expires at 100. -/
def bobConfig : LicenseConfig :=
  { k8sClient := client0, Tkn := some (tokenFor "bob" (some 100)), Lcs := some bobLicense }

/-- A world in which everything succeeds and the token is alice's, expiring at `exp`. -/
def goodWorld (exp : Option Time) : World :=
  worldOf (.ok "uuid-1") "h.p.s" (.ok (tokenFor "alice" exp)) none (.ok createdSecret)


/-- The state right after `InitializeConfig`. -/
def freshConfig : LicenseConfig := InitializeConfig client0

/-- The license built from the stored secret once the uuid "uuid-1" is resolved. -/
def aliceResolved : License := { UserId := "alice", Key := "cipher", PlatformUUID := "uuid-1" }

/-- State holding alice's license with a token that carries no `exp` claim:
what `ValidateLicense` leaves in a fresh process when the world is
`goodWorld none`. -/
def noExpConfig : LicenseConfig :=
  { k8sClient := client0, Tkn := some (tokenFor "alice" none), Lcs := some aliceResolved }

/-- The store call deleting the license secret. -/
def deleteCall : StoreCall := .delete client0 discoveryEngineSecretName namespaceName

/-- The store call creating the secret of alice's license. -/
def createCall : StoreCall :=
  .create client0 namespaceName "cipher" "alice" discoveryEngineSecretName licenseSecLabel

/-- A world in which the cluster uuid cannot be resolved. -/
def worldNoUUID : World :=
  worldOf (.error ⟨"kube-system not found"⟩) "h.p.s" (.ok (tokenFor "alice" (some 500))) none
    (.ok createdSecret)

/-- A world in which keys decrypt to a text with two parts only. -/
def worldBadKey : World :=
  worldOf (.ok "uuid-1") "garbage.text" (.ok (tokenFor "alice" (some 500))) none
    (.ok createdSecret)

/-- A world in which the signature of the token does not verify. -/
def worldBadSignature : World :=
  worldOf (.ok "uuid-1") "h.p.s" (.error ⟨"token signature is invalid"⟩) none
    (.ok createdSecret)

/-- A world in which the creation of the secret fails. -/
def worldCreateFails : World :=
  worldOf (.ok "uuid-1") "h.p.s" (.ok (tokenFor "alice" (some 500))) none
    (.error ⟨"store unavailable"⟩)

/-! ## Theorems -/

/-! ### Shared lemmas -/

/-- With a token that is not expired and no license, line 86 dereferences the
nil `LCfg.Lcs`. -/
theorem validateLicense_nil_license_panics (w : World) (now : Time) (cfg : LicenseConfig)
    (l : License) (hLcs : cfg.Lcs = none)
    (hTkn : checkExpiration cfg.Tkn now = .ret false) :
    ValidateLicense w now cfg l = .panic .nilLicense := by
  cases hT : cfg.Tkn with
  | none => simp [checkExpiration, hT] at hTkn
  | some t =>
    rw [hT] at hTkn
    simp [ValidateLicense, checkExistingLicense, hLcs, hT, hTkn]

/-- Past the conflict check, `ValidateLicense` is the rest of its body. -/
theorem validateLicense_pass (w : World) (now : Time) (cfg : LicenseConfig) (l : License)
    (hpass : checkExistingLicense cfg = false ∨ checkExpiration cfg.Tkn now = .ret true) :
    ValidateLicense w now cfg l =
      match getKubeSystemUUID w cfg with
      | .error err =>
        .ret { err := some err, l := { l with PlatformUUID := "" }, cfg := cfg, calls := [] }
      | .ok uuid =>
        match decryptKey w l.Key uuid with
        | .error err =>
          .ret { err := some err, l := { l with PlatformUUID := uuid }, cfg := cfg, calls := [] }
        | .ok decryptedKey =>
          match validateToken w decryptedKey l.UserId with
          | .error err =>
            .ret { err := some err, l := { l with PlatformUUID := uuid }, cfg := cfg
                   calls := [] }
          | .ok t =>
            let rm : RemoveResult :=
              if checkExistingLicense cfg then removeLicenseSecretsConfig w cfg
              else { err := none, cfg := cfg, calls := [] }
            match rm.err with
            | some err =>
              .ret { err := some err, l := { l with PlatformUUID := uuid }, cfg := rm.cfg
                     calls := rm.calls }
            | none =>
              match w.CreateLicenseSecret rm.cfg.k8sClient namespaceName l.Key l.UserId
                  discoveryEngineSecretName licenseSecLabel with
              | .error err =>
                .ret { err := some err, l := { l with PlatformUUID := uuid }, cfg := rm.cfg
                       calls := rm.calls ++
                         [.create rm.cfg.k8sClient namespaceName l.Key l.UserId
                           discoveryEngineSecretName licenseSecLabel] }
              | .ok _ =>
                .ret { err := none, l := { l with PlatformUUID := uuid }
                       cfg := { rm.cfg with Lcs := some { l with PlatformUUID := uuid }
                                            Tkn := some t }
                       calls := rm.calls ++
                         [.create rm.cfg.k8sClient namespaceName l.Key l.UserId
                           discoveryEngineSecretName licenseSecLabel] } := by
  rcases hpass with h | h
  · simp [ValidateLicense, h]
  · by_cases hE : checkExistingLicense cfg = true
    · simp [ValidateLicense, h, hE]
    · simp [ValidateLicense, hE]

theorem getKubeSystemUUID_eq (w : World) (cfg : LicenseConfig) :
    getKubeSystemUUID w cfg = w.GetKubeSystemUUID cfg.k8sClient := by
  unfold getKubeSystemUUID
  cases w.GetKubeSystemUUID cfg.k8sClient <;> rfl

/-- The state `ValidateLicense` leaves behind is the one it found, or has both
fields nil, or holds the receiver as its license. -/
theorem validateLicense_ret_cfg (w : World) (now : Time) (cfg : LicenseConfig) (l : License)
    (r : ValidateResult) (h : ValidateLicense w now cfg l = .ret r) :
    r.cfg = cfg ∨ (r.cfg.Tkn = none ∧ r.cfg.Lcs = none) ∨ r.cfg.Lcs = some r.l := by
  by_cases hpass : checkExistingLicense cfg = false ∨ checkExpiration cfg.Tkn now = .ret true
  · rw [validateLicense_pass w now cfg l hpass] at h
    cases hU : getKubeSystemUUID w cfg with
    | error e =>
      simp [hU] at h
      subst h
      exact Or.inl rfl
    | ok uuid =>
      cases hD : decryptKey w l.Key uuid with
      | error e =>
        simp [hU, hD] at h
        subst h
        exact Or.inl rfl
      | ok dk =>
        cases hT : validateToken w dk l.UserId with
        | error e =>
          simp [hU, hD, hT] at h
          subst h
          exact Or.inl rfl
        | ok t =>
          by_cases hE : checkExistingLicense cfg = true
          · cases hdel : w.DeleteSecrets cfg.k8sClient discoveryEngineSecretName
                namespaceName with
            | some e =>
              simp [hU, hD, hT, hE, removeLicenseSecretsConfig, hdel] at h
              subst h
              exact Or.inr (Or.inl ⟨rfl, rfl⟩)
            | none =>
              cases hC : w.CreateLicenseSecret cfg.k8sClient namespaceName l.Key l.UserId
                  discoveryEngineSecretName licenseSecLabel with
              | error e =>
                simp [hU, hD, hT, hE, removeLicenseSecretsConfig, hdel, hC] at h
                subst h
                exact Or.inr (Or.inl ⟨rfl, rfl⟩)
              | ok secret =>
                simp [hU, hD, hT, hE, removeLicenseSecretsConfig, hdel, hC] at h
                subst h
                exact Or.inr (Or.inr rfl)
          · cases hC : w.CreateLicenseSecret cfg.k8sClient namespaceName l.Key l.UserId
                discoveryEngineSecretName licenseSecLabel with
            | error e =>
              simp [hU, hD, hT, hE, hC] at h
              subst h
              exact Or.inl rfl
            | ok secret =>
              simp [hU, hD, hT, hE, hC] at h
              subst h
              exact Or.inr (Or.inr rfl)
  · simp only [not_or] at hpass
    obtain ⟨hE, hX⟩ := hpass
    have hE1 : checkExistingLicense cfg = true := by simpa using hE
    unfold ValidateLicense at h
    simp only [hE1, if_true] at h
    rcases hX1 : checkExpiration cfg.Tkn now with b | c
    · cases b
      · cases hL : cfg.Lcs with
        | none => simp [hX1, hL] at h
        | some cur =>
          simp [hX1, hL] at h
          subst h
          exact Or.inl rfl
      · exact absurd hX1 hX
    · simp [hX1] at h

/-- The invariant of `LCfg`: a token is present only together with a license. -/
theorem reachable_token_has_license (cfg : LicenseConfig) (h : Reachable cfg) :
    cfg.Tkn ≠ none → cfg.Lcs ≠ none := by
  induction h with
  | init k => simp [InitializeConfig]
  | check w now cfg r _ hr ih =>
    unfold CheckLicenseSecret at hr
    split at hr
    · cases hr
      exact ih
    · cases hr
      exact ih
    · simp only at hr
      split at hr
      · cases hr
      · split at hr <;> cases hr <;> simp
  | validate w now cfg l r _ hr ih =>
    rcases validateLicense_ret_cfg w now cfg l r hr with h1 | ⟨h1, _⟩ | h1
    · rw [h1]
      exact ih
    · intro h2
      exact absurd h1 h2
    · intro _
      simp [h1]
  | remove w cfg _ _ => simp [removeLicenseSecretsConfig]

/-- With a license present, `ValidateLicense` never dereferences a nil
`LCfg.Lcs`; the dereference happens only when the token is present. -/
theorem validateLicense_no_nil_license (w : World) (now : Time) (cfg : LicenseConfig)
    (l : License) (h : cfg.Tkn ≠ none → cfg.Lcs ≠ none) :
    ValidateLicense w now cfg l ≠ .panic .nilLicense := by
  intro hp
  by_cases hpass : checkExistingLicense cfg = false ∨ checkExpiration cfg.Tkn now = .ret true
  · rw [validateLicense_pass w now cfg l hpass] at hp
    split at hp
    · cases hp
    · split at hp
      · cases hp
      · split at hp
        · cases hp
        · simp only at hp
          split at hp
          · cases hp
          · split at hp <;> cases hp
  · simp only [not_or] at hpass
    obtain ⟨hE, hX⟩ := hpass
    have hE1 : checkExistingLicense cfg = true := by simpa using hE
    unfold ValidateLicense at hp
    simp only [hE1, if_true] at hp
    rcases hX1 : checkExpiration cfg.Tkn now with b | c
    · cases b
      · cases hL : cfg.Lcs with
        | none =>
          cases hT : cfg.Tkn with
          | none => simp [checkExpiration, hT] at hX1
          | some t => exact h (by simp [hT]) hL
        | some cur => simp [hX1, hL] at hp
      · exact absurd hX1 hX
    · rw [hX1] at hp
      simp at hp
      subst hp
      cases hT : cfg.Tkn with
      | none => simp [checkExpiration, hT] at hX1
      | some t =>
        simp only [checkExpiration, hT] at hX1
        split at hX1 <;> first | cases hX1 | (split at hX1 <;> cases hX1)

/-! ### C1 -/

/-- C1: when a current license exists and its token is not expired at the time
of the call, `ValidateLicense` returns the "valid license already exists"
error, leaves `LCfg` (both `Lcs` and `Tkn`) as it was and makes no call of the
secret store's delete or create. -/
theorem validateLicense_already_licensed (w : World) (now : Time) (cfg : LicenseConfig)
    (l cur : License) (hLcs : cfg.Lcs = some cur)
    (hTkn : checkExpiration cfg.Tkn now = .ret false) :
    ValidateLicense w now cfg l =
      .ret { err := some (validLicenseExists cur), l := l, cfg := cfg, calls := [] } := by
  unfold ValidateLicense
  have hE : checkExistingLicense cfg = true := by simp [checkExistingLicense, hLcs]
  simp only [hE, if_true, hTkn, hLcs]

theorem validateLicense_already_licensed_witness :
    bobConfig.Lcs = some bobLicense ∧
    checkExpiration bobConfig.Tkn 100 = .ret false ∧
    ValidateLicense (goodWorld (some 500)) 100 bobConfig aliceLicense =
      .ret { err := some (validLicenseExists bobLicense), l := aliceLicense
             cfg := bobConfig, calls := [] } :=
  ⟨rfl, rfl,
    validateLicense_already_licensed (goodWorld (some 500)) 100 bobConfig aliceLicense
      bobLicense rfl rfl⟩


/-! ### C2 -/

/-- C2: in every state that passes the conflict check (no license yet, or an
expired one), if the cluster uuid cannot be resolved, or the decrypted key
does not split into exactly three dot-separated parts, or `validateToken`
returns an error, then `ValidateLicense` returns that error, `LCfg` (both
`Lcs` and `Tkn`) is unchanged and neither delete nor create of the secret
store is called. -/
theorem validateLicense_failure_keeps_state (w : World) (now : Time) (cfg : LicenseConfig)
    (l : License)
    (hpass : checkExistingLicense cfg = false ∨ checkExpiration cfg.Tkn now = .ret true) :
    (∀ e, w.GetKubeSystemUUID cfg.k8sClient = .error e →
      ValidateLicense w now cfg l =
        .ret { err := some e, l := { l with PlatformUUID := "" }, cfg := cfg, calls := [] }) ∧
    (∀ uuid, w.GetKubeSystemUUID cfg.k8sClient = .ok uuid →
      (stringsSplit (w.Decrypt l.Key uuid).data '.').length ≠ 3 →
      ValidateLicense w now cfg l =
        .ret { err := some ⟨"invalid license key"⟩, l := { l with PlatformUUID := uuid }
               cfg := cfg, calls := [] }) ∧
    (∀ uuid e, w.GetKubeSystemUUID cfg.k8sClient = .ok uuid →
      (stringsSplit (w.Decrypt l.Key uuid).data '.').length = 3 →
      validateToken w (w.Decrypt l.Key uuid) l.UserId = .error e →
      ValidateLicense w now cfg l =
        .ret { err := some e, l := { l with PlatformUUID := uuid }, cfg := cfg
               calls := [] }) := by
  refine ⟨?_, ?_, ?_⟩
  · intro e hU
    rw [validateLicense_pass w now cfg l hpass, getKubeSystemUUID_eq, hU]
  · intro uuid hU hS
    rw [validateLicense_pass w now cfg l hpass, getKubeSystemUUID_eq, hU]
    simp [decryptKey, hS]
  · intro uuid e hU hS hT
    rw [validateLicense_pass w now cfg l hpass, getKubeSystemUUID_eq, hU]
    simp [decryptKey, hS, hT]

theorem validateLicense_failure_keeps_state_witness :
    (checkExistingLicense bobConfig = false ∨ checkExpiration bobConfig.Tkn 200 = .ret true) ∧
    ValidateLicense worldNoUUID 200 bobConfig aliceLicense =
      .ret { err := some ⟨"kube-system not found"⟩, l := aliceLicense, cfg := bobConfig
             calls := [] } ∧
    ValidateLicense worldBadKey 200 bobConfig aliceLicense =
      .ret { err := some ⟨"invalid license key"⟩, l := aliceResolved, cfg := bobConfig
             calls := [] } ∧
    ValidateLicense worldBadSignature 200 bobConfig aliceLicense =
      .ret { err := some ⟨"token signature is invalid"⟩, l := aliceResolved
             cfg := bobConfig, calls := [] } :=
  ⟨Or.inr rfl,
    (validateLicense_failure_keeps_state worldNoUUID 200 bobConfig aliceLicense
      (Or.inr rfl)).1 ⟨"kube-system not found"⟩ rfl,
    (validateLicense_failure_keeps_state worldBadKey 200 bobConfig aliceLicense
      (Or.inr rfl)).2.1 "uuid-1" rfl (by decide),
    (validateLicense_failure_keeps_state worldBadSignature 200 bobConfig aliceLicense
      (Or.inr rfl)).2.2 "uuid-1" ⟨"token signature is invalid"⟩ rfl (by decide) rfl⟩

/-! ### C3 -/

/-- C3, evaluated: with no license yet and a cluster uuid that cannot be
resolved, `ValidateLicense` returns an error and leaves `LCfg.Lcs` nil, yet
after `CheckLicenseSecret` returns that error `LCfg.Lcs` is the license built
from the fetched secret; and with bob's valid license current, the rejected
license of alice replaces it while bob's token stays. -/
theorem checkLicenseSecret_commits_rejected_license :
    ValidateLicense worldNoUUID 0 freshConfig aliceLicense =
      .ret { err := some ⟨"kube-system not found"⟩, l := aliceLicense, cfg := freshConfig
             calls := [] } ∧
    freshConfig.Lcs = none ∧
    CheckLicenseSecret worldNoUUID 0 freshConfig =
      .ret { err := some ⟨"kube-system not found"⟩
             cfg := { k8sClient := client0, Tkn := none, Lcs := some aliceLicense }
             calls := [] } ∧
    CheckLicenseSecret (goodWorld (some 500)) 100 bobConfig =
      .ret { err := some (validLicenseExists bobLicense)
             cfg := { k8sClient := client0, Tkn := some (tokenFor "bob" (some 100))
                      Lcs := some aliceLicense }
             calls := [] } :=
  ⟨rfl, rfl, rfl, rfl⟩

/-! ### C4 -/

/-- C4, refuted: a token whose expiration is exactly the current instant is
reported as not expired. -/
theorem checkExpiration_at_boundary_counterexample :
    checkExpiration (some (tokenFor "bob" (some 100))) 100 = .ret false ∧
    ¬ (∀ (t : Token) (exp now : Time),
        t.claims.RegisteredClaims.GetExpirationTime = .ok (some exp) → exp = now →
        checkExpiration (some t) now = .ret true) := by
  refine ⟨rfl, fun h => ?_⟩
  have h1 := h (tokenFor "bob" (some 100)) 100 100 rfl rfl
  simp [checkExpiration, tokenFor] at h1

/-- C4, amended: for a token with expiration time `exp`, `checkExpiration`
reports expired exactly when `exp` is strictly before `now`; it reports not
expired when `exp` equals `now` and when `exp` is one unit after `now`. -/
theorem checkExpiration_boundary (t : Token) (exp now : Time)
    (hexp : t.claims.RegisteredClaims.GetExpirationTime = .ok (some exp)) :
    (checkExpiration (some t) now = .ret true ↔ exp < now) ∧
    (exp = now → checkExpiration (some t) now = .ret false) ∧
    (exp = now + 1 → checkExpiration (some t) now = .ret false) := by
  refine ⟨?_, ?_, ?_⟩
  · by_cases h : exp < now <;> simp [checkExpiration, hexp, h]
  · intro h
    simp [checkExpiration, hexp, h]
  · intro h
    have hlt : ¬ exp < now := by
      rw [h]
      exact not_lt.mpr (Int.le_add_one (le_refl now))
    simp [checkExpiration, hexp, hlt]

theorem checkExpiration_boundary_witness :
    (tokenFor "bob" (some 100)).claims.RegisteredClaims.GetExpirationTime = .ok (some 100) ∧
    ((checkExpiration (some (tokenFor "bob" (some 100))) 100 = .ret true ↔ (100 : Time) < 100) ∧
     ((100 : Time) = 100 → checkExpiration (some (tokenFor "bob" (some 100))) 100 = .ret false) ∧
     ((100 : Time) = 100 + 1 →
        checkExpiration (some (tokenFor "bob" (some 100))) 100 = .ret false)) :=
  ⟨rfl, checkExpiration_boundary (tokenFor "bob" (some 100)) 100 100 rfl⟩


/-! ### C5 -/

/-- C5: for every decrypted key that parses and verifies (whatever its
expiration) and every user id different from the subject claim,
`validateToken` returns the error "error while validating userId" and no
token; so `ValidateLicense`, once past the conflict check, uuid resolution and
decryption, returns that error, leaves `LCfg` unchanged and calls neither
delete nor create. -/
theorem validateToken_subject_mismatch (w : World) (decryptedKey userId : String)
    (key : RSAPublicKey) (jwtToken : JwtToken) (claims : Claims) (sub : String)
    (hkey : w.ParseRSAPublicKeyFromPEM publicKey = .ok key)
    (hparse : w.ParseWithClaims decryptedKey (keyFunc key) = .ok (jwtToken, claims))
    (hsub : claims.RegisteredClaims.GetSubject = .ok sub)
    (hne : sub ≠ userId) :
    validateToken w decryptedKey userId = .error ⟨"error while validating userId"⟩ ∧
    ∀ (now : Time) (cfg : LicenseConfig) (l : License) (uuid : String),
      (checkExistingLicense cfg = false ∨ checkExpiration cfg.Tkn now = .ret true) →
      w.GetKubeSystemUUID cfg.k8sClient = .ok uuid →
      decryptKey w l.Key uuid = .ok decryptedKey →
      l.UserId = userId →
      ValidateLicense w now cfg l =
        .ret { err := some ⟨"error while validating userId"⟩
               l := { l with PlatformUUID := uuid }, cfg := cfg, calls := [] } := by
  have hT : validateToken w decryptedKey userId = .error ⟨"error while validating userId"⟩ := by
    simp [validateToken, hkey, hparse, validateClaims, validateUserId, hsub, hne]
  refine ⟨hT, ?_⟩
  intro now cfg l uuid hpass hU hD hId
  rw [validateLicense_pass w now cfg l hpass, getKubeSystemUUID_eq, hU]
  simp [hD, hId, hT]

theorem validateToken_subject_mismatch_witness :
    validateToken (goodWorld (some 500)) "h.p.s" "mallory" =
      .error ⟨"error while validating userId"⟩ ∧
    ValidateLicense (goodWorld (some 500)) 200 bobConfig
        { UserId := "mallory", Key := "cipher", PlatformUUID := "" } =
      .ret { err := some ⟨"error while validating userId"⟩
             l := { UserId := "mallory", Key := "cipher", PlatformUUID := "uuid-1" }
             cfg := bobConfig, calls := [] } :=
  have h := validateToken_subject_mismatch (goodWorld (some 500)) "h.p.s" "mallory"
    ⟨publicKey⟩ (tokenFor "alice" (some 500)).jwt (tokenFor "alice" (some 500)).claims "alice"
    rfl rfl rfl (by decide)
  ⟨h.1, h.2 200 bobConfig { UserId := "mallory", Key := "cipher", PlatformUUID := "" } "uuid-1"
    (Or.inr rfl) rfl rfl rfl⟩

/-! ### C6 -/

/-- C6, evaluated: a token that verifies, has the matching subject and carries
no expiration claim (the getter yields a nil date and no error) is returned
by `validateToken` without error; `ValidateLicense` makes it the current
token; and `checkExpiration`, which reports a failing getter as expired,
dereferences the nil date instead of reporting it. -/
theorem validateToken_accepts_missing_expiration :
    (tokenFor "alice" none).claims.RegisteredClaims.GetExpirationTime = .ok none ∧
    validateToken (goodWorld none) "h.p.s" "alice" = .ok (tokenFor "alice" none) ∧
    ValidateLicense (goodWorld none) 0 freshConfig aliceLicense =
      .ret { err := none, l := aliceResolved, cfg := noExpConfig, calls := [createCall] } ∧
    checkExpiration (some (tokenFor "alice" none)) 0 = .panic .nilExpiration :=
  ⟨rfl, rfl, rfl, rfl⟩

/-! ### C7 -/

/-- C7 (renewal): in a state holding an expired license, for a license that
passes uuid resolution, decryption and token validation, when delete and
create of the secret store both succeed, `ValidateLicense` returns no error,
the store calls are exactly the delete followed by the create with the key and
user id of `l`, and afterwards `LCfg.Lcs` is `l` (with the resolved uuid) and
`LCfg.Tkn` is the validated token. -/
theorem validateLicense_renewal (w : World) (now : Time) (cfg : LicenseConfig) (l : License)
    (uuid decryptedKey : String) (t : Token) (secret : Secret)
    (hexisting : checkExistingLicense cfg = true)
    (hexpired : checkExpiration cfg.Tkn now = .ret true)
    (hU : w.GetKubeSystemUUID cfg.k8sClient = .ok uuid)
    (hD : decryptKey w l.Key uuid = .ok decryptedKey)
    (hT : validateToken w decryptedKey l.UserId = .ok t)
    (hdel : w.DeleteSecrets cfg.k8sClient discoveryEngineSecretName namespaceName = none)
    (hcreate : w.CreateLicenseSecret cfg.k8sClient namespaceName l.Key l.UserId
      discoveryEngineSecretName licenseSecLabel = .ok secret) :
    ValidateLicense w now cfg l =
      .ret { err := none
             l := { l with PlatformUUID := uuid }
             cfg := { k8sClient := cfg.k8sClient, Tkn := some t
                      Lcs := some { l with PlatformUUID := uuid } }
             calls :=
               [.delete cfg.k8sClient discoveryEngineSecretName namespaceName,
                .create cfg.k8sClient namespaceName l.Key l.UserId
                  discoveryEngineSecretName licenseSecLabel] } := by
  rw [validateLicense_pass w now cfg l (Or.inr hexpired), getKubeSystemUUID_eq, hU]
  simp [hD, hT, hexisting, removeLicenseSecretsConfig, hdel, hcreate]

theorem validateLicense_renewal_witness :
    checkExistingLicense bobConfig = true ∧
    checkExpiration bobConfig.Tkn 200 = .ret true ∧
    ValidateLicense (goodWorld (some 500)) 200 bobConfig aliceLicense =
      .ret { err := none, l := aliceResolved
             cfg := { k8sClient := client0, Tkn := some (tokenFor "alice" (some 500))
                      Lcs := some aliceResolved }
             calls := [deleteCall, createCall] } :=
  ⟨rfl, rfl,
    validateLicense_renewal (goodWorld (some 500)) 200 bobConfig aliceLicense "uuid-1" "h.p.s"
      (tokenFor "alice" (some 500)) createdSecret rfl rfl rfl rfl rfl rfl rfl⟩

/-! ### C8 -/

/-- C8, refuted: the creation of the secret fails with the same store error
once after bob's expired license was removed from the store and once with no
license before; `ValidateLicense` returns the same error in both cases. -/
theorem validateLicense_create_failure_counterexample :
    ValidateLicense worldCreateFails 200 bobConfig aliceLicense =
      .ret { err := some ⟨"store unavailable"⟩, l := aliceResolved
             cfg := { k8sClient := client0, Tkn := none, Lcs := none }
             calls := [deleteCall, createCall] } ∧
    ValidateLicense worldCreateFails 200 freshConfig aliceLicense =
      .ret { err := some ⟨"store unavailable"⟩, l := aliceResolved
             cfg := freshConfig, calls := [createCall] } ∧
    returnedError (ValidateLicense worldCreateFails 200 bobConfig aliceLicense) =
      returnedError (ValidateLicense worldCreateFails 200 freshConfig aliceLicense) :=
  ⟨rfl, rfl, rfl⟩

/-- C8, amended: when the creation of the new secret fails, `ValidateLicense`
returns the store's creation error as it is, whether an expired license was
removed from the store just before (then the delete precedes the create and
`LCfg.Lcs` and `LCfg.Tkn` are left nil) or no license existed (then only the
create is called and `LCfg` is unchanged). -/
theorem validateLicense_create_failure (w : World) (now : Time) (cfg : LicenseConfig)
    (l : License) (uuid decryptedKey : String) (t : Token) (e : GoError)
    (hpass : checkExistingLicense cfg = false ∨ checkExpiration cfg.Tkn now = .ret true)
    (hU : w.GetKubeSystemUUID cfg.k8sClient = .ok uuid)
    (hD : decryptKey w l.Key uuid = .ok decryptedKey)
    (hT : validateToken w decryptedKey l.UserId = .ok t)
    (hdel : checkExistingLicense cfg = true →
      w.DeleteSecrets cfg.k8sClient discoveryEngineSecretName namespaceName = none)
    (hcreate : w.CreateLicenseSecret cfg.k8sClient namespaceName l.Key l.UserId
      discoveryEngineSecretName licenseSecLabel = .error e) :
    (checkExistingLicense cfg = true →
      ValidateLicense w now cfg l =
        .ret { err := some e, l := { l with PlatformUUID := uuid }
               cfg := { k8sClient := cfg.k8sClient, Tkn := none, Lcs := none }
               calls :=
                 [.delete cfg.k8sClient discoveryEngineSecretName namespaceName,
                  .create cfg.k8sClient namespaceName l.Key l.UserId
                    discoveryEngineSecretName licenseSecLabel] }) ∧
    (checkExistingLicense cfg = false →
      ValidateLicense w now cfg l =
        .ret { err := some e, l := { l with PlatformUUID := uuid }, cfg := cfg
               calls :=
                 [.create cfg.k8sClient namespaceName l.Key l.UserId
                    discoveryEngineSecretName licenseSecLabel] }) ∧
    returnedError (ValidateLicense w now cfg l) = some (some e) := by
  rw [validateLicense_pass w now cfg l hpass, getKubeSystemUUID_eq, hU]
  by_cases hE : checkExistingLicense cfg = true
  · simp [hD, hT, hE, removeLicenseSecretsConfig, hdel hE, hcreate, returnedError]
  · simp [hD, hT, hE, hcreate, returnedError]

theorem validateLicense_create_failure_witness :
    (checkExistingLicense bobConfig = false ∨ checkExpiration bobConfig.Tkn 200 = .ret true) ∧
    ValidateLicense worldCreateFails 200 bobConfig aliceLicense =
      .ret { err := some ⟨"store unavailable"⟩, l := aliceResolved
             cfg := { k8sClient := client0, Tkn := none, Lcs := none }
             calls := [deleteCall, createCall] } ∧
    returnedError (ValidateLicense worldCreateFails 200 bobConfig aliceLicense) =
      some (some ⟨"store unavailable"⟩) :=
  have h := validateLicense_create_failure worldCreateFails 200 bobConfig aliceLicense "uuid-1"
    "h.p.s" (tokenFor "alice" (some 500)) ⟨"store unavailable"⟩ (Or.inr rfl) rfl rfl rfl
    (fun _ => rfl) rfl
  ⟨Or.inr rfl, h.1 rfl, h.2.2⟩


/-! ### The watch loop -/

/-- The three cases of a pass of the loop of `WatchLicenseValidity`: it calls
`os.Exit(1)` exactly when `LCfg.Lcs` is nil, `LCfg.Tkn` is nil or
`checkExpiration` reports the token expired; it sleeps 15 seconds, leaving the
state as it is, when `checkExpiration` reports the token not expired; it
panics exactly when both are present and `checkExpiration` panics.  A run
starts with a pass, before any sleep. -/
theorem watchLicenseValidity_poll_cases (cfg : LicenseConfig) (now : Time) (clock : Nat → Time)
    (fuel sleeps : Nat) :
    (WatchLicenseValidity.poll cfg now = .exit 1 ↔
      (cfg.Lcs = none ∨ cfg.Tkn = none ∨ checkExpiration cfg.Tkn now = .ret true)) ∧
    ((WatchLicenseValidity.poll cfg now = .exit 1 ∨
        ∃ c, WatchLicenseValidity.poll cfg now = .panic c) ↔
      (cfg.Lcs = none ∨ cfg.Tkn = none ∨ checkExpiration cfg.Tkn now ≠ .ret false)) ∧
    (¬ (cfg.Lcs = none ∨ cfg.Tkn = none ∨ checkExpiration cfg.Tkn now ≠ .ret false) →
      WatchLicenseValidity.poll cfg now = .sleep cfg 15) ∧
    (∀ cfg1 seconds, WatchLicenseValidity.poll cfg now = .sleep cfg1 seconds →
      cfg1 = cfg ∧ seconds = 15) ∧
    (∀ c, WatchLicenseValidity.poll cfg now = .panic c ↔
      (cfg.Lcs ≠ none ∧ checkExpiration cfg.Tkn now = .panic c)) ∧
    (WatchLicenseValidity.poll cfg (clock sleeps) = .sleep cfg 15 →
      WatchLicenseValidity clock (fuel + 1) cfg sleeps =
        WatchLicenseValidity clock fuel cfg (sleeps + 1)) ∧
    (WatchLicenseValidity.poll cfg (clock sleeps) = .exit 1 →
      WatchLicenseValidity clock (fuel + 1) cfg sleeps = .exited 1 sleeps) ∧
    (∀ (t : Token) (exp : Time), cfg.Tkn = some t →
      t.claims.RegisteredClaims.GetExpirationTime = .ok (some exp) → exp < clock 0 →
      WatchLicenseValidity clock (fuel + 1) cfg 0 = .exited 1 0) := by
  refine ⟨?_, ?_, ?_, ?_, ?_, ?_, ?_, ?_⟩
  · obtain ⟨k, tkn, lcs⟩ := cfg
    cases lcs <;> cases tkn <;> simp [WatchLicenseValidity.poll]
    generalize checkExpiration (some _) now = x
    rcases x with (_ | _) | c <;> simp
  · obtain ⟨k, tkn, lcs⟩ := cfg
    cases lcs <;> cases tkn <;> simp [WatchLicenseValidity.poll]
    generalize checkExpiration (some _) now = x
    rcases x with (_ | _) | c <;> simp
  · intro h
    simp only [not_or, not_not] at h
    obtain ⟨hL, hT, hX⟩ := h
    cases hL1 : cfg.Lcs with
    | none => exact absurd hL1 hL
    | some lic =>
      cases hT1 : cfg.Tkn with
      | none => exact absurd hT1 hT
      | some t =>
        rw [hT1] at hX
        simp [WatchLicenseValidity.poll, hL1, hT1, hX]
  · intro cfg1 seconds h
    unfold WatchLicenseValidity.poll at h
    split at h
    · cases h
    · split at h
      · cases h
      · cases h
      · cases h
        exact ⟨rfl, rfl⟩
  · intro c
    obtain ⟨k, tkn, lcs⟩ := cfg
    cases lcs with
    | none => simp [WatchLicenseValidity.poll]
    | some lic =>
      cases tkn with
      | none => simp [WatchLicenseValidity.poll, checkExpiration]
      | some t =>
        simp only [WatchLicenseValidity.poll]
        generalize checkExpiration (some t) now = x
        rcases x with (_ | _) | c1 <;> simp
  · intro h
    simp [WatchLicenseValidity, h]
  · intro h
    simp [WatchLicenseValidity, h]
  · intro t exp hT hexp hlt
    cases hL : cfg.Lcs <;>
      simp [WatchLicenseValidity, WatchLicenseValidity.poll, hL, hT, checkExpiration, hexp, hlt]

/-! ### C9 -/

/-- C9, evaluated: in the state that `ValidateLicense` leaves after it accepted
a token without expiration claim (license and token both present), a pass of
the loop neither calls `os.Exit(1)` nor sleeps: `checkExpiration` dereferences
the nil date and the run ends in that panic before any sleep. -/
theorem watchLicenseValidity_panics_without_expiration :
    Reachable noExpConfig ∧
    noExpConfig.Lcs = some aliceResolved ∧
    noExpConfig.Tkn = some (tokenFor "alice" none) ∧
    checkExpiration noExpConfig.Tkn 0 = .panic .nilExpiration ∧
    WatchLicenseValidity.poll noExpConfig 0 = .panic .nilExpiration ∧
    WatchLicenseValidity (fun n => 15 * (n : Int)) 4 noExpConfig 0 =
      .panicked .nilExpiration 0 :=
  ⟨Reachable.validate (goodWorld none) 0 freshConfig aliceLicense
      { err := none, l := aliceResolved, cfg := noExpConfig, calls := [createCall] }
      (Reachable.init client0) rfl,
    rfl, rfl, rfl, rfl, rfl⟩

/-! ### C10 -/

/-- The state after alice's license was validated in a fresh process. -/
theorem reachable_aliceConfig :
    Reachable { k8sClient := client0, Tkn := some (tokenFor "alice" (some 500))
                Lcs := some aliceResolved } :=
  Reachable.validate (goodWorld (some 500)) 0 freshConfig aliceLicense
    { err := none, l := aliceResolved
      cfg := { k8sClient := client0, Tkn := some (tokenFor "alice" (some 500))
               Lcs := some aliceResolved }
      calls := [createCall] }
    (Reachable.init client0) rfl

/-- C10: in every state reachable from `InitializeConfig` by calls of
`CheckLicenseSecret`, `ValidateLicense` and `removeLicenseSecretsConfig`,
whatever the collaborators answer, `LCfg.Tkn` present implies `LCfg.Lcs`
present; so no call of `ValidateLicense` in such a state panics on a nil
`LCfg.Lcs` when it builds the "valid license already exists" error. -/
theorem reachable_license_invariant (cfg : LicenseConfig) (h : Reachable cfg) :
    (cfg.Tkn ≠ none → cfg.Lcs ≠ none) ∧
    ∀ (w : World) (now : Time) (l : License),
      ValidateLicense w now cfg l ≠ .panic .nilLicense :=
  ⟨reachable_token_has_license cfg h,
    fun w now l => validateLicense_no_nil_license w now cfg l (reachable_token_has_license cfg h)⟩

theorem reachable_license_invariant_witness :
    Reachable { k8sClient := client0, Tkn := some (tokenFor "alice" (some 500))
                Lcs := some aliceResolved } ∧
    ((some (tokenFor "alice" (some 500)) ≠ none → some aliceResolved ≠ none) ∧
      ∀ (w : World) (now : Time) (l : License),
        ValidateLicense w now
          { k8sClient := client0, Tkn := some (tokenFor "alice" (some 500))
            Lcs := some aliceResolved } l ≠ .panic .nilLicense) :=
  ⟨reachable_aliceConfig,
    reachable_license_invariant
      { k8sClient := client0, Tkn := some (tokenFor "alice" (some 500))
        Lcs := some aliceResolved } reachable_aliceConfig⟩


end DiscoveryEngine
